import Mathlib

/-!
Verification of `iterm2_dwim/editors/sublime.py` (`Sublime.visit_file`).

The source method is:

```python
def visit_file(self, path, line):
    path = re.sub('\.pyc$', '.py', path)
    cmd = [
        self.executable,
        '%s:%s' % (path, line)
    ]
    log(' '.join(cmd))
    subprocess.check_call(cmd)
```

Strings are embedded as Lean `String`s (reasoning is over their `List Char`
contents).  Python's `re.sub('\.pyc$', '.py', path)` is embedded below as
`reSubPycToPy` / `normalizePath`: without `re.MULTILINE`, the anchor `$` in a
Python regex matches at the very end of the string AND just before a newline
character that is the last character of the string, so the pattern `\.pyc$`
matches exactly when the string ends in `.pyc`, or ends in `.pyc` followed by
one final newline; in either case the matched `.pyc` is replaced by `.py`.
The line number is embedded as an `Int` (Python's `'%s' % line` becomes
`toString line`).

The two effects of the method (the `log` call and the `subprocess.check_call`)
are embedded as an explicit event trace, and the child process's exit status
is an explicit parameter `exitCode : Int` supplied by the environment.
`subprocess.check_call` blocks until the child exits and raises
`CalledProcessError(returncode)` exactly when the exit status is non-zero;
this is embedded as an `Except Int Unit` result that `visit_file` returns to
its caller (an `Except.error` is the uncaught exception propagating out of
`visit_file`).
-/

/-- The characters of the regex literal `.pyc` (the pattern `\.pyc` with the
escaped dot). -/
def pycSuffix : List Char := ['.', 'p', 'y', 'c']

/-- The characters of the replacement string `.py`. -/
def pySuffix : List Char := ['.', 'p', 'y']

/-- Embedding of Python's `re.sub('\.pyc$', '.py', s)` on the character list
of the subject string.  The anchor `$` (no `re.MULTILINE`) matches at the end
of the string or just before a trailing newline, so the substitution fires
exactly when `s` ends in `.pyc` or in `.pyc` followed by a final `'\n'`;
the matched four characters `.pyc` are replaced by `.py`. -/
def reSubPycToPy (s : List Char) : List Char :=
  if pycSuffix.isSuffixOf s then
    s.take (s.length - 4) ++ pySuffix
  else if (pycSuffix ++ ['\n']).isSuffixOf s then
    s.take (s.length - 5) ++ (pySuffix ++ ['\n'])
  else
    s

/-- `path = re.sub('\.pyc$', '.py', path)` lifted to `String`. -/
def normalizePath (path : String) : String :=
  ⟨reSubPycToPy path.data⟩

/-- `cmd = [self.executable, '%s:%s' % (path, line)]` after the `re.sub`
normalization of `path`. -/
def buildCmd (executable path : String) (line : Int) : List String :=
  [executable, normalizePath path ++ ":" ++ toString line]

/-- An observable effect of `visit_file`: a call to `log` with a message, or
the spawning of a child process with an argument vector. -/
inductive Event where
  | logged (msg : String)
  | spawned (cmd : List String)
deriving DecidableEq

/-- Projection used to collect the log messages of a trace. -/
def Event.loggedMsg : Event → Option String
  | .logged m => some m
  | _ => none

/-- Projection used to collect the spawned argument vectors of a trace. -/
def Event.spawnedCmd : Event → Option (List String)
  | .spawned c => some c
  | _ => none

/-- The outcome of one `visit_file` call: the ordered trace of its effects,
and the value/exception it returns to the caller. -/
structure VisitOutcome where
  trace : List Event
  result : Except Int Unit

/-- Embedding of `Sublime.visit_file(self, path, line)`.  `executable` is
`self.executable`; `exitCode` is the exit status of the spawned child (the
environment's choice).  The method rewrites the path, builds `cmd`, logs
`' '.join(cmd)`, then calls `subprocess.check_call(cmd)`, which blocks until
the child exits and raises `CalledProcessError(exitCode)` iff the exit status
is non-zero; the exception is not caught, so it is the method's result. -/
def visit_file (executable path : String) (line : Int) (exitCode : Int) :
    VisitOutcome :=
  let cmd := buildCmd executable path line
  { trace := [Event.logged (String.intercalate " " cmd), Event.spawned cmd]
    result := if exitCode = 0 then Except.ok () else Except.error exitCode }

/-- A list ending in `.pyc` followed by a newline does not end in `.pyc`
(the last characters differ). -/
theorem not_pyc_suffix_of_pycNl_suffix (s : List Char)
    (h : (pycSuffix ++ ['\n']).isSuffixOf s = true) :
    pycSuffix.isSuffixOf s = false := by
  rw [List.isSuffixOf_iff_suffix] at h
  by_contra hc
  rw [Bool.not_eq_false, List.isSuffixOf_iff_suffix] at hc
  obtain ⟨t, ht⟩ := h
  obtain ⟨u, hu⟩ := hc
  have hlast : s.getLast? = some '\n' := by
    rw [← ht]
    simp [pycSuffix, List.getLast?_append]
  have hlast' : s.getLast? = some 'c' := by
    rw [← hu]
    simp [pycSuffix, List.getLast?_append]
  rw [hlast] at hlast'
  simp at hlast'

/-- Joining a two-element command with `' '.join` interposes one space. -/
theorem intercalate_pair (sep a b : String) :
    String.intercalate sep [a, b] = a ++ sep ++ b := rfl

/-- C1 (counterexample): the claim says a path not ending in `.pyc` is used
unchanged, but the path `"/a/b.pyc\n"` does not end in `.pyc` and is still
rewritten by the `re.sub`, because the regex anchor `$` also matches just
before a trailing newline. -/
theorem C1_counterexample :
    pycSuffix.isSuffixOf "/a/b.pyc\n".data = false ∧
    normalizePath "/a/b.pyc\n" ≠ "/a/b.pyc\n" := by decide

/-- C1 (amended): a path ending in `.pyc` has that suffix replaced by `.py`;
a path ending in `.pyc` followed by a single trailing newline has the `.pyc`
before the newline replaced by `.py` (the newline is kept); every other path
is used unchanged in the command. -/
theorem C1_pyc_rewrite_amended (p : String) :
    (∀ t, p.data = t ++ pycSuffix → (normalizePath p).data = t ++ pySuffix) ∧
    (∀ t, p.data = t ++ (pycSuffix ++ ['\n']) →
      (normalizePath p).data = t ++ (pySuffix ++ ['\n'])) ∧
    (pycSuffix.isSuffixOf p.data = false →
      (pycSuffix ++ ['\n']).isSuffixOf p.data = false → normalizePath p = p) := by
  refine ⟨fun t ht => ?_, fun t ht => ?_, fun h1 h2 => ?_⟩
  · have hS : pycSuffix <:+ p.data := ⟨t, ht.symm⟩
    have hstep : (normalizePath p).data =
        p.data.take (p.data.length - 4) ++ pySuffix := by
      simp [normalizePath, reSubPycToPy, hS]
    rw [hstep, ht,
      List.take_left' (show t.length = (t ++ pycSuffix).length - 4 by
        simp [pycSuffix])]
  · have hS : (pycSuffix ++ ['\n']) <:+ p.data := ⟨t, ht.symm⟩
    have hb : (pycSuffix ++ ['\n']).isSuffixOf p.data = true := by
      rw [List.isSuffixOf_iff_suffix]; exact hS
    have hn : ¬ (pycSuffix <:+ p.data) := by
      rw [← List.isSuffixOf_iff_suffix, not_pyc_suffix_of_pycNl_suffix p.data hb]
      simp
    have hstep : (normalizePath p).data =
        p.data.take (p.data.length - 5) ++ (pySuffix ++ ['\n']) := by
      simp [normalizePath, reSubPycToPy, hn, hS]
    rw [hstep, ht,
      List.take_left' (show t.length = (t ++ (pycSuffix ++ ['\n'])).length - 5 by
        simp [pycSuffix])]
  · have hn1 : ¬ (pycSuffix <:+ p.data) := by
      rw [← List.isSuffixOf_iff_suffix, h1]; simp
    have hn2 : ¬ ((pycSuffix ++ ['\n']) <:+ p.data) := by
      rw [← List.isSuffixOf_iff_suffix, h2]; simp
    simp [normalizePath, reSubPycToPy, hn1, hn2]

/-- C1 (amended, witness): the three cases evaluated at concrete paths. -/
theorem C1_pyc_rewrite_amended_witness :
    (normalizePath "/a/b.pyc").data = ['/', 'a', '/', 'b'] ++ pySuffix ∧
    (normalizePath "/a/b.pyc\n").data = ['/', 'a', '/', 'b'] ++ (pySuffix ++ ['\n']) ∧
    normalizePath "/a/b.txt" = "/a/b.txt" :=
  ⟨(C1_pyc_rewrite_amended "/a/b.pyc").1 ['/', 'a', '/', 'b'] (by decide),
   (C1_pyc_rewrite_amended "/a/b.pyc\n").2.1 ['/', 'a', '/', 'b'] (by decide),
   (C1_pyc_rewrite_amended "/a/b.txt").2.2 (by decide) (by decide)⟩

/-- C2: the spawned argument vector is exactly the two-element list
`[executable, "path:line"]`, with the normalized path, for every call. -/
theorem C2_argv_shape (e p : String) (l ec : Int) :
    (visit_file e p l ec).trace.filterMap Event.spawnedCmd =
      [[e, normalizePath p ++ ":" ++ toString l]] := by
  simp [visit_file, Event.spawnedCmd, Event.loggedMsg, buildCmd]

/-- C3: when the spawned editor process exits with a non-zero status,
`visit_file` raises a process-execution error carrying that exit code; the
error is not caught inside `visit_file` and is its result to the caller. -/
theorem C3_nonzero_exit_raises (e p : String) (l ec : Int) (h : ec ≠ 0) :
    (visit_file e p l ec).result = Except.error ec := by
  simp [visit_file, h]

/-- C3 (witness): exit status 2 yields the error carrying 2. -/
theorem C3_nonzero_exit_raises_witness :
    (visit_file "subl" "/a/b.py" 1 2).result = Except.error 2 :=
  C3_nonzero_exit_raises "subl" "/a/b.py" 1 2 (by decide)

/-- C4: when the spawned editor process exits with status 0, `visit_file`
returns normally, raising no error. -/
theorem C4_zero_exit_ok (e p : String) (l : Int) :
    (visit_file e p l 0).result = Except.ok () := by
  simp [visit_file]

/-- C5: every call emits exactly one log line, whose content is the command's
elements joined by single spaces (`executable ++ " " ++ "path:line"`), and the
log event occurs strictly before the spawn event in the trace. -/
theorem C5_log_once_before_spawn (e p : String) (l ec : Int) :
    (visit_file e p l ec).trace.filterMap Event.loggedMsg =
      [e ++ " " ++ (normalizePath p ++ ":" ++ toString l)] ∧
    ∃ i j : Nat, i < j ∧
      (visit_file e p l ec).trace[i]? =
        some (Event.logged (e ++ " " ++ (normalizePath p ++ ":" ++ toString l))) ∧
      (visit_file e p l ec).trace[j]? = some (Event.spawned (buildCmd e p l)) := by
  refine ⟨?_, 0, 1, Nat.zero_lt_one, ?_, ?_⟩ <;>
    simp [visit_file, buildCmd, Event.loggedMsg, intercalate_pair]

/-- C6: the two worked examples: `("/a/b.pyc", 42)` gives
`["subl", "/a/b.py:42"]` and `("/a/b.txt", 1)` gives
`["subl", "/a/b.txt:1"]`. -/
theorem C6_examples :
    buildCmd "subl" "/a/b.pyc" 42 = ["subl", "/a/b.py:42"] ∧
    buildCmd "subl" "/a/b.txt" 1 = ["subl", "/a/b.txt:1"] := by decide

/-- C7: for every path and every (integer) line value, including non-positive
ones, `visit_file` performs no local validation: it always spawns the child
exactly once, and its result is determined by the exit status alone — the
same exit status gives the same result whatever the path and line were. -/
theorem C7_no_local_validation (e p q : String) (l m ec : Int) :
    ((visit_file e p l ec).trace.filterMap Event.spawnedCmd).length = 1 ∧
    (visit_file e p l ec).result = (visit_file e q m ec).result := by
  constructor
  · simp [visit_file, Event.spawnedCmd]
  · rfl

/-- C8: the child is spawned exactly once per call, and the trace does not
depend on the exit status: no retry happens whatever the outcome. -/
theorem C8_spawn_once (e p : String) (l ec ecAlt : Int) :
    ((visit_file e p l ec).trace.filterMap Event.spawnedCmd).length = 1 ∧
    (visit_file e p l ec).trace = (visit_file e p l ecAlt).trace := by
  constructor
  · simp [visit_file, Event.spawnedCmd]
  · rfl

/-- C9: command construction is deterministic: two calls with the same
executable, path and line produce the same spawned argument vector and the
same logged command string, whatever the (only other) environment input —
the exit statuses — may be. -/
theorem C9_deterministic (e p : String) (l ec1 ec2 : Int) :
    (visit_file e p l ec1).trace.filterMap Event.spawnedCmd =
      (visit_file e p l ec2).trace.filterMap Event.spawnedCmd ∧
    (visit_file e p l ec1).trace.filterMap Event.loggedMsg =
      (visit_file e p l ec2).trace.filterMap Event.loggedMsg :=
  ⟨rfl, rfl⟩

/-- C10: a path whose text ends in `.pyc` followed by a single trailing
newline does not end with `.pyc`, yet the `re.sub` rewrite fires on it,
replacing the `.pyc` before the newline by `.py`. -/
theorem C10_trailing_newline_rewrite (p : String)
    (h : (pycSuffix ++ ['\n']).isSuffixOf p.data = true) :
    pycSuffix.isSuffixOf p.data = false ∧
    (normalizePath p).data =
      p.data.take (p.data.length - 5) ++ (pySuffix ++ ['\n']) := by
  have h' := not_pyc_suffix_of_pycNl_suffix p.data h
  refine ⟨h', ?_⟩
  have hS : (pycSuffix ++ ['\n']) <:+ p.data := by
    rw [← List.isSuffixOf_iff_suffix]; exact h
  have hn : ¬ (pycSuffix <:+ p.data) := by
    rw [← List.isSuffixOf_iff_suffix, h']; simp
  simp [normalizePath, reSubPycToPy, hn, hS]

/-- C10 (witness): `"/a/b.pyc\n"` becomes `"/a/b.py\n"`. -/
theorem C10_trailing_newline_rewrite_witness :
    pycSuffix.isSuffixOf "/a/b.pyc\n".data = false ∧
    (normalizePath "/a/b.pyc\n").data =
      "/a/b.pyc\n".data.take ("/a/b.pyc\n".data.length - 5) ++ (pySuffix ++ ['\n']) :=
  C10_trailing_newline_rewrite "/a/b.pyc\n" (by decide)
